import Mathlib

/-!
Verification of the atom-jshint plugin (src/index.js) against its
natural-language specification.

The JavaScript module is shallowly embedded below.  JavaScript objects used
as dictionaries are modelled as association lists (JS object keys enumerate
in insertion order for string keys and in ascending numeric order for array
indices; the encodings below record this explicitly where it matters).
Host-UI side effects (marker creation/destruction, status-bar DOM edits) are
recorded in explicit logs so that claims about "no marker was created or
destroyed" are statable.  A JavaScript `TypeError` (dereferencing a property
of `null`/`undefined`) is modelled by an `Option` result being `none`.
-/

namespace AtomJshint

/-- One JSHint diagnostic, as read from `linter.errors`:
`{line, character, reason}` (`line` is 1-based; JSHint reports `line: 0`
for configuration-level errors). -/
structure Diagnostic where
  line : Nat
  character : Nat
  reason : String
deriving DecidableEq, Repr

/-- Association-list lookup, modelling `obj[k]` on a JS object/array
(`none` models `undefined`). -/
def lookupKey {α β : Type} [DecidableEq α] (k : α) : List (α × β) → Option β
  | [] => none
  | (k', v) :: rest => if k' = k then some v else lookupKey k rest

/-- Association-list update, modelling `obj[k] = v`: an existing key is
overwritten in place, a new key is appended. -/
def setKey {α β : Type} [DecidableEq α] (k : α) (v : β) : List (α × β) → List (α × β)
  | [] => [(k, v)]
  | (k', v') :: rest => if k' = k then (k, v) :: rest else (k', v') :: setKey k v rest

/-- Association-list removal, modelling `delete obj[k]` (removes the first,
in our usage unique, occurrence of the key). -/
def eraseKey {α β : Type} [DecidableEq α] (k : α) : List (α × β) → List (α × β)
  | [] => []
  | (k', v') :: rest => if k' = k then rest else (k', v') :: eraseKey k rest

/-- Stable insertion of a diagnostic into a list sorted by ascending
`character` (a diagnostic is placed before the first strictly larger or
equal-keyed later element only when strictly required, keeping equal keys in
their original order as lodash `_.sortBy` does). -/
def insertByCharacter (d : Diagnostic) : List Diagnostic → List Diagnostic
  | [] => [d]
  | e :: rest =>
    if d.character ≤ e.character then d :: e :: rest else e :: insertByCharacter d rest

/-- `_.sortBy(group, function (el) { return el.character; })`: stable sort of
a same-line group by ascending column. -/
def sortByCharacter (l : List Diagnostic) : List Diagnostic :=
  l.foldr insertByCharacter []

/-- One step of the aggregation loop in `lint` (src/index.js lines 148-161):
`ret[l]` either gains a new element and is re-sorted by `character`, or is
created as the singleton `[el]`.  The JS value `ret` is a sparse array, i.e.
a map keyed by the number `l` whose keys enumerate in ascending order; it is
encoded as an association list kept sorted by ascending key. -/
def insertGroup : List (Nat × List Diagnostic) → Nat → Diagnostic → List (Nat × List Diagnostic)
  | [], l, d => [(l, [d])]
  | (k, g) :: rest, l, d =>
    if l = k then (k, sortByCharacter (g ++ [d])) :: rest
    else if l < k then (l, [d]) :: (k, g) :: rest
    else (k, g) :: insertGroup rest l d

/-- The whole aggregation loop of `lint`: `_.each(errors, function (el) ...)`
building `ret`, keyed by `el.line`. -/
def aggregate (ds : List Diagnostic) : List (Nat × List Diagnostic) :=
  ds.foldl (fun ret d => insertGroup ret d.line d) []

/-- `getRowForError` (src/index.js lines 83-87):
`var line = error[0].line || 1; return line - 1;`.
Callers always pass a non-empty group (`error[0]` would throw otherwise);
the `none` head case is given the same value as `line || 1` would pick so
the function stays total. -/
def getRowForError (error : List Diagnostic) : Nat :=
  let line := match error.head? with
    | some d => if d.line = 0 then 1 else d.line
    | none => 1
  line - 1

/-- A JavaScript primitive value, as compared by `===`: a number and a
string are never strictly equal. -/
inductive JSVal where
  | num (n : Nat)
  | str (s : String)
deriving DecidableEq, Repr

/-- JavaScript strict equality `===` on `JSVal` (no type coercion). -/
def jsStrictEq : JSVal → JSVal → Bool
  | .num a, .num b => a == b
  | .str a, .str b => a == b
  | _, _ => false

/-- The global marker bookkeeping: `markersByEditorId` (editor id → row key →
marker), plus a fresh-id counter standing for `editor.markBufferRange`
returning a new marker handle, and logs of every marker handle created and
destroyed (host-UI side effects). Row keys are strings because JS object
keys are strings: `markersByEditorId[editor.id][row]` coerces the numeric
row with `toString`. -/
structure GStore where
  markersByEditorId : List (Nat × List (String × Nat)) := []
  nextId : Nat := 0
  created : List Nat := []
  destroyed : List Nat := []
deriving DecidableEq, Repr

/-- The marker map of one editor (`markersByEditorId[editor.id]` defaulting
to the empty object). -/
def markersOf (eid : Nat) (g : GStore) : List (String × Nat) :=
  (lookupKey eid g.markersByEditorId).getD []

/-- `getMarkersForEditor` when an active editor with id `eid` is present:
`if (editor && markersByEditorId[editor.id]) return it; return {};`. -/
def getMarkersForEditorE (eid : Nat) (g : GStore) : List (String × Nat) :=
  markersOf eid g

/-- `destroyMarkerAtRow(row)` with the active editor `eid` present:
`if (markersByEditorId[editor.id] && markersByEditorId[editor.id][row])
{ marker.destroy(); delete markersByEditorId[editor.id][row]; }`. -/
def destroyMarkerAtRowE (eid : Nat) (row : String) (g : GStore) : GStore :=
  match lookupKey eid g.markersByEditorId with
  | none => g
  | some m =>
    match lookupKey row m with
    | none => g
    | some mk =>
      { g with
        markersByEditorId := setKey eid (eraseKey row m) g.markersByEditorId
        destroyed := g.destroyed ++ [mk] }

/-- `saveMarker(marker, row)` with the active editor `eid` present: creates
the per-editor map when missing, then `markersByEditorId[editor.id][row] =
marker`. -/
def saveMarkerE (eid mk : Nat) (row : String) (g : GStore) : GStore :=
  let m := (lookupKey eid g.markersByEditorId).getD []
  { g with markersByEditorId := setKey eid (setKey row mk m) g.markersByEditorId }

/-- `getMarkerAtRow(row)` with the active editor `eid` present. -/
def getMarkerAtRowE (eid : Nat) (row : String) (g : GStore) : Option Nat :=
  match lookupKey eid g.markersByEditorId with
  | none => none
  | some m => lookupKey row m

/-- `clearOldMarkers(errors)` with the active editor `eid` present
(src/index.js lines 24-35).  `rows` is an array of JS numbers
(`getRowForError` results); the iterated `row` values are the string keys
of `oldMarkers` (`_.keys`); `_.contains(rows, row)` compares them with
strict equality, faithfully modelled on `JSVal`. -/
def clearOldMarkersE (eid : Nat) (errors : List (List Diagnostic)) (g : GStore) : GStore :=
  let rows := errors.map (fun e => JSVal.num (getRowForError e))
  let old := getMarkersForEditorE eid g
  (old.map (·.1)).foldl
    (fun acc row =>
      if rows.any (fun v => jsStrictEq v (JSVal.str row)) then acc
      else destroyMarkerAtRowE eid row acc) g

/-- `displayError(error)` with the active editor `eid` present
(src/index.js lines 89-102): if a marker already exists at the error's row,
return; otherwise create a marker (fresh handle from `markBufferRange`,
logged in `created`; the two `decorateMarker` calls and `addReasons` touch
only host-UI decoration state, not tracked here) and save it. -/
def displayErrorE (eid : Nat) (error : List Diagnostic) (g : GStore) : GStore :=
  let row := getRowForError error
  match getMarkerAtRowE eid (toString row) g with
  | some _ => g
  | none =>
    let mk := g.nextId
    saveMarkerE eid mk (toString row)
      { g with nextId := g.nextId + 1, created := g.created ++ [mk] }

/-- `displayErrors(errors)` with the active editor `eid` present
(src/index.js lines 170-174): `clearOldMarkers(errors); updateStatusbar();
_.each(errors, displayError);` — `updateStatusbar` touches only the status
bar DOM and is modelled separately by `updateStatusbar` below. -/
def displayErrorsE (eid : Nat) (errors : List (List Diagnostic)) (g : GStore) : GStore :=
  let g1 := clearOldMarkersE eid errors g
  errors.foldl (fun acc e => displayErrorE eid e acc) g1

/-- `getMarkersForEditor()` as written: the only Marker Store helper that
checks `editor` for null before dereferencing it. -/
def getMarkersForEditor (act : Option Nat) (g : GStore) : List (String × Nat) :=
  match act with
  | some eid => getMarkersForEditorE eid g
  | none => []

/-- `destroyMarkerAtRow(row)` as written: `atom.workspace.getActiveEditor()`
may be null, and `markersByEditorId[editor.id]` then throws a `TypeError`
(`none`). -/
def destroyMarkerAtRow (act : Option Nat) (row : String) (g : GStore) : Option GStore :=
  match act with
  | none => none
  | some eid => some (destroyMarkerAtRowE eid row g)

/-- `saveMarker(marker, row)` as written: dereferences `editor.id` without a
null check, so it throws (`none`) when there is no active editor. -/
def saveMarker (act : Option Nat) (mk : Nat) (row : String) (g : GStore) : Option GStore :=
  match act with
  | none => none
  | some eid => some (saveMarkerE eid mk row g)

/-- `getMarkerAtRow(row)` as written: throws (`none`) when there is no
active editor; otherwise returns the marker or `undefined` (`some none`). -/
def getMarkerAtRow (act : Option Nat) (row : String) (g : GStore) : Option (Option Nat) :=
  match act with
  | none => none
  | some eid => some (getMarkerAtRowE eid row g)

/-- `clearOldMarkers(errors)` as written: with no active editor,
`getMarkersForEditor` returns `{}`, the loop body never runs, and the call
is a safe no-op; with an editor it destroys every stale row.  The loop may
call `destroyMarkerAtRow`, which can fault, hence the `Option` fold. -/
def clearOldMarkers (act : Option Nat) (errors : List (List Diagnostic)) (g : GStore) :
    Option GStore :=
  let rows := errors.map (fun e => JSVal.num (getRowForError e))
  let old := getMarkersForEditor act g
  (old.map (·.1)).foldlM
    (fun acc row =>
      if rows.any (fun v => jsStrictEq v (JSVal.str row)) then some acc
      else destroyMarkerAtRow act row acc) g

/-- `displayError(error)` as written: its first statement
`getMarkerAtRow(row)` already dereferences the absent editor, so with no
active editor the call throws (`none`); with one it behaves as
`displayErrorE`. -/
def displayError (act : Option Nat) (error : List Diagnostic) (g : GStore) : Option GStore :=
  match act with
  | none => none
  | some eid => some (displayErrorE eid error g)

/-- A status-bar DOM operation performed by `updateStatusbar`:
`statusBar.find('#jshint-statusbar').remove()` and
`statusBar.appendLeft(html)`. -/
inductive StatusOp where
  | remove
  | insertHtml (html : String)
deriving DecidableEq, Repr

/-- The text of the status-bar summary for the chosen diagnostic:
`'JSHint ' + error.line + ':' + error.character + ' ' + error.reason`. -/
def statusbarText (d : Diagnostic) : String :=
  "JSHint " ++ toString d.line ++ ":" ++ toString d.character ++ " " ++ d.reason

/-- The full element appended by `updateStatusbar`. -/
def statusbarHtml (d : Diagnostic) : String :=
  "<span id=\"jshint-statusbar\" class=\"inline-block\">" ++ statusbarText d ++ "</span>"

/-- `updateStatusbar()` (src/index.js lines 65-81), as a function of the
inputs it reads: whether `atom.workspaceView.statusBar` exists, the active
editor, that editor's entry in `errorsByEditorId` (the aggregation result,
keyed by 1-based line as `aggregate` builds it), and the cursor row.  The
result is the list of DOM operations performed, `none` modelling the
`TypeError` thrown by `error[0]` / `error.line` when no group can be chosen
(unreachable from `lint`, which only stores non-empty aggregates). -/
def updateStatusbar (hasStatusBar : Bool) (activeEditor : Option Nat)
    (errorsOfEditor : Option (List (Nat × List Diagnostic))) (cursorRow : Nat) :
    Option (List StatusOp) :=
  if hasStatusBar then
    match activeEditor, errorsOfEditor with
    | some _, some errs =>
      let line := cursorRow + 1
      let chosen : Option (List Diagnostic) :=
        match lookupKey line errs with
        | some grp => some grp
        | none => (errs.map (·.2)).head?
      match chosen with
      | none => none
      | some grp =>
        match grp.head? with
        | none => none
        | some d => some [.remove, .insertHtml (statusbarHtml d)]
    | _, _ => some [.remove]
  else some []

/-- The fields of an Atom editor that `lint` reads: `editor.id`,
`editor.getGrammar().name`, `editor.getUri()` (null when the buffer has no
backing file), and `editor.getText()`. -/
structure Editor where
  id : Nat
  grammarName : String
  uri : Option String
  text : String
deriving DecidableEq, Repr

/-- The two engine variants `lint` chooses between. -/
inductive Engine where
  | jshint
  | jsxhint
deriving DecidableEq, Repr

/-- A linter configuration as `lint` uses it: an opaque record of rule flags
plus the `config.globals` field passed as the engine's third argument. -/
structure Config where
  rules : List (String × Bool) := []
  globals : List (String × Bool) := []
deriving DecidableEq, Repr

/-- The module state `lint` updates: `errorsByEditorId` (editor id → the
aggregated, line-keyed groups) and the marker bookkeeping. -/
structure PluginState where
  errorsByEditorId : List (Nat × List (Nat × List Diagnostic)) := []
  markers : GStore := {}
deriving DecidableEq, Repr

/-- `removeErrorsForEditorId(id)` (src/index.js lines 182-186). -/
def removeErrorsForEditorId (id : Nat) (s : PluginState) : PluginState :=
  { s with errorsByEditorId := eraseKey id s.errorsByEditorId }

/-- `removeMarkersForEditorId(id)` (src/index.js lines 176-180). -/
def removeMarkersForEditorId (id : Nat) (s : PluginState) : PluginState :=
  { s with markers :=
      { s.markers with markersByEditorId := eraseKey id s.markers.markersByEditorId } }

/-- The engine chosen on src/index.js line 138:
`(atom.config.get('jshint.supportLintingJsx') ||
atom.config.get('jshint.transformJsx')) ? jsxhint : jshint`. -/
def selectedLinter (supportLintingJsx transformJsx : Bool) : Engine :=
  if supportLintingJsx || transformJsx then .jsxhint else .jshint

/-- The config resolution on src/index.js line 136:
`var config = file ? loadConfig(file) : {};` — `loadConfig` is external and
may throw, modelled by `Except`. -/
def resolveConfig (loadConfig : String → Except String Config) (editor : Editor) :
    Except String Config :=
  match editor.uri with
  | some file => loadConfig file
  | none => .ok {}

/-- `lint()` (src/index.js lines 124-168).  External collaborators are
passed as function arguments: `loadConfig` (may throw) and `runLinter`
(the engine invocation `linter(text, config, config.globals)` followed by
the read of `linter.errors`; may throw; entries may be null, hence
`Option Diagnostic`).  The result pairs the state after the call with
either the propagated exception (`Except.error`, carrying the state at the
throw point, which for both throw sites is the entry state) or
`Except.ok engineCalled`, where `engineCalled` records which engine, if
any, was invoked during the pass. -/
def lint (loadConfig : String → Except String Config)
    (runLinter : Engine → String → Config → List (String × Bool) →
      Except String (List (Option Diagnostic)))
    (supportLintingJsx transformJsx : Bool)
    (activeEditor : Option Editor) (s : PluginState) :
    PluginState × Except String (Option Engine) :=
  match activeEditor with
  | none => (s, .ok none)
  | some editor =>
    if (["JavaScript", "JavaScript (JSX)"].contains editor.grammarName) = false then
      (s, .ok none)
    else
      match resolveConfig loadConfig editor with
      | .error e => (s, .error e)
      | .ok config =>
        let linter := selectedLinter supportLintingJsx transformJsx
        match runLinter linter editor.text config config.globals with
        | .error e => (s, .error e)
        | .ok rawErrors =>
          let s1 := removeErrorsForEditorId editor.id s
          let errors := rawErrors.reduceOption
          if errors.length > 0 then
            let ret := aggregate errors
            let s2 := { s1 with errorsByEditorId := setKey editor.id ret s1.errorsByEditorId }
            let groups := ret.map (·.2)
            ({ s2 with markers := displayErrorsE editor.id groups s2.markers },
              .ok (some linter))
          else
            ({ s1 with markers := displayErrorsE editor.id [] s1.markers },
              .ok (some linter))

theorem lookup_setKey_self {α β : Type} [DecidableEq α] (k : α) (v : β) (l : List (α × β)) :
    lookupKey k (setKey k v l) = some v := by
  induction l with
  | nil => simp [setKey, lookupKey]
  | cons kv rest ih =>
    obtain ⟨k', v'⟩ := kv
    by_cases h : k' = k
    · simp [setKey, lookupKey, h]
    · simp [setKey, lookupKey, h, ih]

theorem lookupKey_eq_none {α β : Type} [DecidableEq α] (k : α) (l : List (α × β)) :
    lookupKey k l = none ↔ k ∉ l.map (·.1) := by
  induction l with
  | nil => simp [lookupKey]
  | cons kv rest ih =>
    obtain ⟨k', v'⟩ := kv
    by_cases h : k' = k
    · subst h
      simp [lookupKey]
    · simp [lookupKey, h, ih, Ne.symm h]

theorem mem_of_lookupKey_eq_some {α β : Type} [DecidableEq α] {k : α} {v : β}
    {l : List (α × β)} (h : lookupKey k l = some v) : k ∈ l.map (·.1) := by
  by_contra hc
  rw [← lookupKey_eq_none] at hc
  rw [h] at hc
  cases hc

theorem lookupKey_mem {α β : Type} [DecidableEq α] {k : α} {v : β} {l : List (α × β)}
    (h : lookupKey k l = some v) : (k, v) ∈ l := by
  induction l with
  | nil => cases h
  | cons kv rest ih =>
    obtain ⟨k', v'⟩ := kv
    by_cases hk : k' = k
    · subst hk
      simp [lookupKey] at h
      subst h
      simp
    · simp [lookupKey, hk] at h
      exact List.mem_cons_of_mem _ (ih h)

theorem setKey_of_not_mem {α β : Type} [DecidableEq α] (k : α) (v : β) (l : List (α × β))
    (h : k ∉ l.map (·.1)) : setKey k v l = l ++ [(k, v)] := by
  induction l with
  | nil => simp [setKey]
  | cons kv rest ih =>
    obtain ⟨k', v'⟩ := kv
    simp only [List.map_cons, List.mem_cons] at h
    push_neg at h
    rw [setKey, if_neg (fun hk => h.1 hk.symm), ih h.2]
    simp

theorem mem_insertByCharacter (d x : Diagnostic) (l : List Diagnostic) :
    x ∈ insertByCharacter d l ↔ x = d ∨ x ∈ l := by
  induction l with
  | nil => simp [insertByCharacter]
  | cons e rest ih =>
    by_cases h : d.character ≤ e.character
    · simp [insertByCharacter, h]
    · simp [insertByCharacter, h, ih]
      tauto

theorem pairwise_insertByCharacter (d : Diagnostic) (l : List Diagnostic)
    (hl : List.Pairwise (fun a b => a.character ≤ b.character) l) :
    List.Pairwise (fun a b => a.character ≤ b.character) (insertByCharacter d l) := by
  induction l with
  | nil => simp [insertByCharacter]
  | cons e rest ih =>
    rcases List.pairwise_cons.mp hl with ⟨he, hrest⟩
    by_cases h : d.character ≤ e.character
    · rw [insertByCharacter, if_pos h]
      refine List.pairwise_cons.mpr ⟨?_, hl⟩
      intro x hx
      rcases List.mem_cons.mp hx with rfl | hx
      · exact h
      · exact le_trans h (he x hx)
    · rw [insertByCharacter, if_neg h]
      refine List.pairwise_cons.mpr ⟨?_, ih hrest⟩
      intro x hx
      rcases (mem_insertByCharacter d x rest).mp hx with rfl | hx
      · exact le_of_not_le h
      · exact he x hx

theorem mem_sortByCharacter (x : Diagnostic) (l : List Diagnostic) :
    x ∈ sortByCharacter l ↔ x ∈ l := by
  induction l with
  | nil => simp [sortByCharacter]
  | cons d rest ih =>
    show x ∈ insertByCharacter d (sortByCharacter rest) ↔ _
    rw [mem_insertByCharacter, ih]
    simp

theorem pairwise_sortByCharacter (l : List Diagnostic) :
    List.Pairwise (fun a b => a.character ≤ b.character) (sortByCharacter l) := by
  induction l with
  | nil => simp [sortByCharacter]
  | cons d rest ih => exact pairwise_insertByCharacter d (sortByCharacter rest) ih

theorem keys_insertGroup (ret : List (Nat × List Diagnostic)) (l : Nat) (d : Diagnostic)
    (k : Nat) :
    k ∈ (insertGroup ret l d).map (·.1) ↔ k = l ∨ k ∈ ret.map (·.1) := by
  induction ret with
  | nil => simp [insertGroup, eq_comm]
  | cons kg rest ih =>
    obtain ⟨k', g⟩ := kg
    by_cases h1 : l = k'
    · subst h1
      simp [insertGroup]
    · by_cases h2 : l < k'
      · simp [insertGroup, h1, h2]
      · simp [insertGroup, h1, h2, ih]
        tauto

theorem aggregate_keys_aux (ds : List Diagnostic) :
    ∀ (ret : List (Nat × List Diagnostic)) (k : Nat),
      (k ∈ ((ds.foldl (fun ret d => insertGroup ret d.line d) ret).map (·.1)) ↔
        k ∈ ret.map (·.1) ∨ ∃ d ∈ ds, d.line = k) := by
  induction ds with
  | nil =>
    intro ret k
    simp
  | cons d rest ih =>
    intro ret k
    rw [List.foldl_cons, ih, keys_insertGroup]
    simp only [List.mem_cons]
    constructor
    · rintro ((rfl | hk) | ⟨d', hd', rfl⟩)
      · exact Or.inr ⟨d, Or.inl rfl, rfl⟩
      · exact Or.inl hk
      · exact Or.inr ⟨d', Or.inr hd', rfl⟩
    · rintro (hk | ⟨d', (rfl | hd'), rfl⟩)
      · exact Or.inl (Or.inr hk)
      · exact Or.inl (Or.inl rfl)
      · exact Or.inr ⟨d', hd', rfl⟩

theorem insertGroup_inv (d : Diagnostic) (ret : List (Nat × List Diagnostic))
    (hinv : ∀ kg ∈ ret, List.Pairwise (fun a b => a.character ≤ b.character) kg.2 ∧
      ∀ x ∈ kg.2, x.line = kg.1) :
    ∀ kg ∈ insertGroup ret d.line d,
      List.Pairwise (fun a b => a.character ≤ b.character) kg.2 ∧
      ∀ x ∈ kg.2, x.line = kg.1 := by
  induction ret with
  | nil =>
    intro kg hkg
    simp [insertGroup] at hkg
    subst hkg
    refine ⟨by simp, ?_⟩
    intro x hx
    simp at hx
    subst hx
    rfl
  | cons hd rest ih =>
    obtain ⟨k', g⟩ := hd
    intro kg hkg
    have hhd := hinv (k', g) (List.mem_cons_self _ _)
    have hrest : ∀ kg ∈ rest,
        List.Pairwise (fun a b => a.character ≤ b.character) kg.2 ∧
        ∀ x ∈ kg.2, x.line = kg.1 :=
      fun kg hk => hinv kg (List.mem_cons_of_mem _ hk)
    by_cases h1 : d.line = k'
    · rw [insertGroup, if_pos h1] at hkg
      rcases List.mem_cons.mp hkg with rfl | hkg
      · refine ⟨pairwise_sortByCharacter _, ?_⟩
        intro x hx
        rw [mem_sortByCharacter] at hx
        rcases List.mem_append.mp hx with hx | hx
        · exact hhd.2 x hx
        · simp at hx
          subst hx
          exact h1
      · exact hrest kg hkg
    · by_cases h2 : d.line < k'
      · rw [insertGroup, if_neg h1, if_pos h2] at hkg
        rcases List.mem_cons.mp hkg with rfl | hkg
        · refine ⟨by simp, ?_⟩
          intro x hx
          simp at hx
          subst hx
          rfl
        · exact hinv kg hkg
      · rw [insertGroup, if_neg h1, if_neg h2] at hkg
        rcases List.mem_cons.mp hkg with rfl | hkg
        · exact hhd
        · exact ih hrest kg hkg

theorem aggregate_inv_aux (ds : List Diagnostic) :
    ∀ ret : List (Nat × List Diagnostic),
      (∀ kg ∈ ret, List.Pairwise (fun a b => a.character ≤ b.character) kg.2 ∧
        ∀ x ∈ kg.2, x.line = kg.1) →
      ∀ kg ∈ ds.foldl (fun ret d => insertGroup ret d.line d) ret,
        List.Pairwise (fun a b => a.character ≤ b.character) kg.2 ∧
        ∀ x ∈ kg.2, x.line = kg.1 := by
  induction ds with
  | nil =>
    intro ret h
    simpa using h
  | cons d rest ih =>
    intro ret h
    rw [List.foldl_cons]
    exact ih _ (insertGroup_inv d ret h)

theorem any_row_key_false (errors : List (List Diagnostic)) (s : String) :
    ((errors.map fun e => JSVal.num (getRowForError e)).any
      fun v => jsStrictEq v (JSVal.str s)) = false := by
  induction errors with
  | nil => rfl
  | cons e rest ih => simp [jsStrictEq, ih]

theorem markersOf_update (eid n : Nat) (c : List Nat) (g : GStore) :
    markersOf eid { g with nextId := n, created := c } = markersOf eid g := rfl

theorem markersOf_saveMarkerE (eid mk : Nat) (row : String) (g : GStore) :
    markersOf eid (saveMarkerE eid mk row g) = setKey row mk (markersOf eid g) := by
  simp [saveMarkerE, markersOf, lookup_setKey_self]

theorem getMarkerAtRowE_eq_lookup (eid : Nat) (row : String) (g : GStore) :
    getMarkerAtRowE eid row g = lookupKey row (markersOf eid g) := by
  unfold getMarkerAtRowE markersOf
  cases h : lookupKey eid g.markersByEditorId <;> simp [lookupKey]

theorem destroy_fold (eid : Nat) (m : List (String × Nat)) :
    ∀ g : GStore,
      lookupKey eid g.markersByEditorId = some m →
      lookupKey eid
        (((m.map (·.1)).foldl (fun acc row => destroyMarkerAtRowE eid row acc)
          g).markersByEditorId) = some [] := by
  induction m with
  | nil =>
    intro g h
    simpa using h
  | cons kv rest ih =>
    obtain ⟨k, v⟩ := kv
    intro g h
    rw [List.map_cons, List.foldl_cons]
    have h1 : destroyMarkerAtRowE eid k g =
        { g with
          markersByEditorId := setKey eid (eraseKey k ((k, v) :: rest)) g.markersByEditorId
          destroyed := g.destroyed ++ [v] } := by
      simp [destroyMarkerAtRowE, h, lookupKey]
    rw [h1]
    apply ih
    have h2 : eraseKey k ((k, v) :: rest) = rest := by simp [eraseKey]
    simp [lookup_setKey_self, h2]

theorem clearOldMarkersE_markersOf (eid : Nat) (errors : List (List Diagnostic)) (g : GStore) :
    markersOf eid (clearOldMarkersE eid errors g) = [] := by
  unfold clearOldMarkersE getMarkersForEditorE
  simp only [any_row_key_false, Bool.false_eq_true, if_false]
  cases h : lookupKey eid g.markersByEditorId with
  | none =>
    simp [markersOf, h]
  | some m =>
    have hm : markersOf eid g = m := by simp [markersOf, h]
    rw [hm]
    have := destroy_fold eid m g h
    simp [markersOf, this]

theorem displayErrorE_of_found (eid : Nat) (error : List Diagnostic) (g : GStore) (mk : Nat)
    (h : getMarkerAtRowE eid (toString (getRowForError error)) g = some mk) :
    displayErrorE eid error g = g := by
  simp [displayErrorE, h]

theorem displayErrorE_of_missing (eid : Nat) (error : List Diagnostic) (g : GStore)
    (h : getMarkerAtRowE eid (toString (getRowForError error)) g = none) :
    displayErrorE eid error g =
      saveMarkerE eid g.nextId (toString (getRowForError error))
        { g with nextId := g.nextId + 1, created := g.created ++ [g.nextId] } := by
  simp [displayErrorE, h]

theorem display_fold (eid : Nat) (errors : List (List Diagnostic)) :
    ∀ g : GStore,
      ((markersOf eid g).map (·.1)).Nodup →
      (((markersOf eid
            (errors.foldl (fun acc e => displayErrorE eid e acc) g)).map (·.1)).Nodup ∧
        ∀ k,
          k ∈ (markersOf eid
            (errors.foldl (fun acc e => displayErrorE eid e acc) g)).map (·.1) ↔
          (k ∈ (markersOf eid g).map (·.1) ∨
            k ∈ errors.map fun e => toString (getRowForError e))) := by
  induction errors with
  | nil =>
    intro g hg
    refine ⟨hg, ?_⟩
    intro k
    simp
  | cons e rest ih =>
    intro g hg
    rw [List.foldl_cons]
    cases h : getMarkerAtRowE eid (toString (getRowForError e)) g with
    | some mk =>
      rw [displayErrorE_of_found eid e g mk h]
      obtain ⟨ihnd, ihmem⟩ := ih g hg
      refine ⟨ihnd, ?_⟩
      intro k
      rw [ihmem k]
      have hmem : toString (getRowForError e) ∈ (markersOf eid g).map (·.1) := by
        have heq := getMarkerAtRowE_eq_lookup eid (toString (getRowForError e)) g
        rw [h] at heq
        exact mem_of_lookupKey_eq_some heq.symm
      simp only [List.map_cons, List.mem_cons]
      constructor
      · rintro (hk | hk)
        · exact Or.inl hk
        · exact Or.inr (Or.inr hk)
      · rintro (hk | rfl | hk)
        · exact Or.inl hk
        · exact Or.inl hmem
        · exact Or.inr hk
    | none =>
      rw [displayErrorE_of_missing eid e g h]
      have hnotmem : toString (getRowForError e) ∉ (markersOf eid g).map (·.1) := by
        rw [← lookupKey_eq_none, ← getMarkerAtRowE_eq_lookup]
        exact h
      have hstore :
          markersOf eid
            (saveMarkerE eid g.nextId (toString (getRowForError e))
              { g with nextId := g.nextId + 1, created := g.created ++ [g.nextId] }) =
          markersOf eid g ++ [(toString (getRowForError e), g.nextId)] := by
        rw [markersOf_saveMarkerE, markersOf_update]
        exact setKey_of_not_mem _ _ _ hnotmem
      have hkeys :
          (markersOf eid
            (saveMarkerE eid g.nextId (toString (getRowForError e))
              { g with nextId := g.nextId + 1, created := g.created ++ [g.nextId] })).map
            (·.1) =
          (markersOf eid g).map (·.1) ++ [toString (getRowForError e)] := by
        rw [hstore]
        simp
      have hnd1 :
          ((markersOf eid
            (saveMarkerE eid g.nextId (toString (getRowForError e))
              { g with nextId := g.nextId + 1, created := g.created ++ [g.nextId] })).map
            (·.1)).Nodup := by
        rw [hkeys]
        simp [List.nodup_append, hg, hnotmem]
      obtain ⟨ihnd, ihmem⟩ := ih _ hnd1
      refine ⟨ihnd, ?_⟩
      intro k
      rw [ihmem k, hkeys]
      simp only [List.mem_append, List.mem_singleton, List.map_cons, List.mem_cons]
      tauto

/-- Claim C1: for every editor and every lint pass, after reconciliation
(`clearOldMarkers` followed by `displayError` on each group, i.e.
`displayErrorsE`) completes, the set of row keys holding a live marker for
that editor equals the set of rows (`getRowForError`) of the diagnostic
groups of that pass, with at most one marker per row: the key list is
duplicate-free and a key is present exactly when some group maps to it. -/
theorem reconcile_marker_rows_eq (eid : Nat) (errors : List (List Diagnostic)) (g : GStore) :
    ((markersOf eid (displayErrorsE eid errors g)).map (·.1)).Nodup ∧
      ∀ k, k ∈ (markersOf eid (displayErrorsE eid errors g)).map (·.1) ↔
        k ∈ errors.map fun e => toString (getRowForError e) := by
  unfold displayErrorsE
  have h0 : markersOf eid (clearOldMarkersE eid errors g) = [] :=
    clearOldMarkersE_markersOf eid errors g
  obtain ⟨hnd, hmem⟩ :=
    display_fold eid errors (clearOldMarkersE eid errors g) (by rw [h0]; exact List.nodup_nil)
  refine ⟨hnd, fun k => ?_⟩
  rw [hmem k, h0]
  simp

/-- Claim C2 (code bug evidence): running the reconciliation twice with the
identical single diagnostic group (line 3) is not idempotent.  The first
pass creates marker 0 and destroys nothing; the second pass destroys marker
0 and creates marker 1, because `clearOldMarkers` compares the numeric rows
of the new errors against the string keys of the marker map with strict
equality (`_.contains`), which never matches, so every surviving row's
marker is destroyed and immediately recreated. -/
theorem second_reconcile_recreates_markers :
    (displayErrorsE 0 [[⟨3, 1, "x"⟩]] ({} : GStore)).created = [0] ∧
    (displayErrorsE 0 [[⟨3, 1, "x"⟩]] ({} : GStore)).destroyed = [] ∧
    (displayErrorsE 0 [[⟨3, 1, "x"⟩]]
      (displayErrorsE 0 [[⟨3, 1, "x"⟩]] ({} : GStore))).created = [0, 1] ∧
    (displayErrorsE 0 [[⟨3, 1, "x"⟩]]
      (displayErrorsE 0 [[⟨3, 1, "x"⟩]] ({} : GStore))).destroyed = [0] := by
  decide

/-- Claim C3 (counterexample): aggregation does not key groups by the
0-based row `line - 1`; a single diagnostic on line 3 is keyed at 3, not at
2 = 3 - 1. -/
theorem aggregate_keyed_by_line_cex :
    (aggregate [⟨3, 1, "x"⟩]).map (·.1) = [3] ∧ (3 : Nat) ≠ 3 - 1 := by
  decide

/-- Claim C3 (amended): aggregation groups diagnostics into a mapping keyed
by the raw 1-based `line` value itself (a key is present exactly when some
diagnostic has that line), so a diagnostic with `line == 0` (config-level
error) is keyed at 0, not at -1. -/
theorem aggregate_keys_are_lines (ds : List Diagnostic) (k : Nat) :
    k ∈ (aggregate ds).map (·.1) ↔ ∃ d ∈ ds, d.line = k := by
  have h := aggregate_keys_aux ds [] k
  unfold aggregate
  rw [h]
  simp

/-- Claim C4: aggregation returns each group sorted by ascending `character`
column, never puts a diagnostic of a different line into a group (each
group's members all carry exactly the group's line key), and yields the
empty mapping for empty input. -/
theorem aggregate_sorted_no_merge_empty (ds : List Diagnostic) :
    aggregate ([] : List Diagnostic) = [] ∧
    ∀ kg ∈ aggregate ds,
      List.Pairwise (fun a b => a.character ≤ b.character) kg.2 ∧
      ∀ x ∈ kg.2, x.line = kg.1 := by
  refine ⟨rfl, ?_⟩
  exact aggregate_inv_aux ds [] (by simp)

/-- Claim C4 witness: the theorem applied at a concrete diagnostic list. -/
theorem aggregate_sorted_no_merge_empty_witness :
    aggregate ([] : List Diagnostic) = [] ∧
    ∀ kg ∈ aggregate [⟨3, 5, "b"⟩, ⟨3, 1, "a"⟩, ⟨6, 2, "c"⟩],
      List.Pairwise (fun a b => a.character ≤ b.character) kg.2 ∧
      ∀ x ∈ kg.2, x.line = kg.1 :=
  aggregate_sorted_no_merge_empty [⟨3, 5, "b"⟩, ⟨3, 1, "a"⟩, ⟨6, 2, "c"⟩]

/-- Claim C9 (counterexample): with no active editor, `saveMarker` is not a
no-op — it dereferences `editor.id` on the absent editor and throws a
`TypeError` (modelled as `none`), rather than leaving the state unchanged. -/
theorem saveMarker_no_editor_faults :
    saveMarker none 0 "0" ({} : GStore) = none ∧
    saveMarker none 0 "0" ({} : GStore) ≠ some ({} : GStore) := by
  decide

/-- Claim C9 (amended): with no active editor, `getMarkersForEditor` (the
only helper that null-checks the editor) returns the empty map and
`clearOldMarkers` is a safe no-op, but `destroyMarkerAtRow`, `saveMarker`,
`getMarkerAtRow` and `displayError` dereference the absent editor and
throw a `TypeError` (`none`); they are only ever reached from `lint`, which
returns before calling them when there is no active editor. -/
theorem marker_ops_no_editor (row : String) (mk : Nat) (errors : List (List Diagnostic))
    (error : List Diagnostic) (g : GStore) :
    getMarkersForEditor none g = [] ∧
    clearOldMarkers none errors g = some g ∧
    destroyMarkerAtRow none row g = none ∧
    saveMarker none mk row g = none ∧
    getMarkerAtRow none row g = none ∧
    displayError none error g = none :=
  ⟨rfl, rfl, rfl, rfl, rfl, rfl⟩

/-- Claim C10: `getRowForError` maps a group whose first diagnostic has
`line = 0` (config-level error) to row 0 — the same row as a group whose
first diagnostic has `line = 1` — so config-level errors are marked on the
first buffer row. -/
theorem config_error_row_zero (c c' : Nat) (r r' : String)
    (rest rest' : List Diagnostic) :
    getRowForError (⟨0, c, r⟩ :: rest) = 0 ∧
    getRowForError (⟨1, c', r'⟩ :: rest') = 0 ∧
    getRowForError (⟨0, c, r⟩ :: rest) = getRowForError (⟨1, c', r'⟩ :: rest') :=
  ⟨rfl, rfl, rfl⟩

/-- Claim C5: with a status bar present and an editor whose error state is a
line-keyed list of non-empty groups with ascending keys (as `aggregate`
produces), `updateStatusbar` shows the group at the current cursor row
(looked up at `cursorRow + 1`, its 1-based line) when one exists; otherwise
the first group, which has the lowest line of all groups; the summary is
the tool name `JSHint` followed by the chosen group's first diagnostic as
`line:character reason`; with no diagnostics at all only the removal of the
previous summary element happens; and every emitted operation sequence
removes the previous element first. -/
theorem updateStatusbar_summary (eid cursorRow : Nat) (errs : List (Nat × List Diagnostic))
    (hsorted : List.Pairwise (fun a b => a.1 < b.1) errs)
    (hgroups : ∀ kg ∈ errs, kg.2 ≠ []) (hne : errs ≠ []) :
    (∀ grp, lookupKey (cursorRow + 1) errs = some grp →
      ∃ d, grp.head? = some d ∧
        updateStatusbar true (some eid) (some errs) cursorRow =
          some [.remove, .insertHtml (statusbarHtml d)]) ∧
    (lookupKey (cursorRow + 1) errs = none →
      ∃ kg, errs.head? = some kg ∧ (∀ kg' ∈ errs, kg.1 ≤ kg'.1) ∧
        ∃ d, kg.2.head? = some d ∧
          updateStatusbar true (some eid) (some errs) cursorRow =
            some [.remove, .insertHtml (statusbarHtml d)]) ∧
    updateStatusbar true (some eid) none cursorRow = some [.remove] ∧
    (∀ ops, updateStatusbar true (some eid) (some errs) cursorRow = some ops →
      ops.head? = some .remove) := by
  refine ⟨?_, ?_, rfl, ?_⟩
  · intro grp hlook
    have hmem := lookupKey_mem hlook
    have hne' : grp ≠ [] := hgroups (cursorRow + 1, grp) hmem
    obtain ⟨d, t, rfl⟩ : ∃ d t, grp = d :: t := by
      cases grp with
      | nil => exact absurd rfl hne'
      | cons d t => exact ⟨d, t, rfl⟩
    exact ⟨d, rfl, by simp [updateStatusbar, hlook]⟩
  · intro hlook
    obtain ⟨kg, t, rfl⟩ : ∃ kg t, errs = kg :: t := by
      cases errs with
      | nil => exact absurd rfl hne
      | cons kg t => exact ⟨kg, t, rfl⟩
    refine ⟨kg, rfl, ?_, ?_⟩
    · intro kg' hkg'
      rcases List.mem_cons.mp hkg' with rfl | hkg'
      · exact le_refl _
      · exact le_of_lt ((List.pairwise_cons.mp hsorted).1 kg' hkg')
    · have hne' : kg.2 ≠ [] := hgroups kg (List.mem_cons_self _ _)
      obtain ⟨d, t2, hkg2⟩ : ∃ d t2, kg.2 = d :: t2 := by
        cases h2 : kg.2 with
        | nil => exact absurd h2 hne'
        | cons d t2 => exact ⟨d, t2, rfl⟩
      refine ⟨d, by rw [hkg2]; rfl, ?_⟩
      simp [updateStatusbar, hlook, hkg2]
  · intro ops hops
    cases hlook : lookupKey (cursorRow + 1) errs with
    | some grp =>
      cases hgrp : grp.head? with
      | some d =>
        have hval : updateStatusbar true (some eid) (some errs) cursorRow =
            some [.remove, .insertHtml (statusbarHtml d)] := by
          simp [updateStatusbar, hlook, hgrp]
        rw [hval] at hops
        injection hops with h
        subst h
        rfl
      | none =>
        have hval : updateStatusbar true (some eid) (some errs) cursorRow = none := by
          simp [updateStatusbar, hlook, hgrp]
        rw [hval] at hops
        cases hops
    | none =>
      cases hfb : (errs.map (·.2)).head? with
      | some grp =>
        cases hgrp : grp.head? with
        | some d =>
          have hval : updateStatusbar true (some eid) (some errs) cursorRow =
              some [.remove, .insertHtml (statusbarHtml d)] := by
            simp [updateStatusbar, hlook, hfb, hgrp]
          rw [hval] at hops
          injection hops with h
          subst h
          rfl
        | none =>
          have hval : updateStatusbar true (some eid) (some errs) cursorRow = none := by
            simp [updateStatusbar, hlook, hfb, hgrp]
          rw [hval] at hops
          cases hops
      | none =>
        have hval : updateStatusbar true (some eid) (some errs) cursorRow = none := by
          simp [updateStatusbar, hlook, hfb]
        rw [hval] at hops
        cases hops

/-- Claim C5 witness: the spec's worked example — groups on lines 3 and 6,
cursor on row 3 (line 4, no group there), so the summary falls back to the
first group and shows `JSHint 3:4 Missing semicolon`. -/
theorem updateStatusbar_summary_witness :
    updateStatusbar true (some 0)
      (some [(3, [⟨3, 4, "Missing semicolon"⟩]), (6, [⟨6, 1, "y"⟩])]) 3 =
      some [.remove, .insertHtml (statusbarHtml ⟨3, 4, "Missing semicolon"⟩)] := by
  obtain ⟨-, h2, -, -⟩ :=
    updateStatusbar_summary 0 3 [(3, [⟨3, 4, "Missing semicolon"⟩]), (6, [⟨6, 1, "y"⟩])]
      (by decide) (by decide) (by decide)
  obtain ⟨kg, hkg, -, d, hd, hres⟩ := h2 (by decide)
  obtain rfl : (3, [(⟨3, 4, "Missing semicolon"⟩ : Diagnostic)]) = kg :=
    Option.some.inj hkg
  obtain rfl : (⟨3, 4, "Missing semicolon"⟩ : Diagnostic) = d := Option.some.inj hd
  exact hres

/-- Claim C6: when config resolution throws, or when the engine invocation
throws, `lint` propagates the exception and returns with the module state
unchanged — no markers created or destroyed (the marker logs live in the
state) and the editor's prior error state intact. -/
theorem lint_failure_atomic (loadConfig : String → Except String Config)
    (runLinter : Engine → String → Config → List (String × Bool) →
      Except String (List (Option Diagnostic)))
    (supportLintingJsx transformJsx : Bool) (editor : Editor) (s : PluginState) (e : String)
    (hgram : (["JavaScript", "JavaScript (JSX)"].contains editor.grammarName) = true) :
    (resolveConfig loadConfig editor = .error e →
      lint loadConfig runLinter supportLintingJsx transformJsx (some editor) s =
        (s, .error e)) ∧
    (∀ config, resolveConfig loadConfig editor = .ok config →
      runLinter (selectedLinter supportLintingJsx transformJsx) editor.text config
        config.globals = .error e →
      lint loadConfig runLinter supportLintingJsx transformJsx (some editor) s =
        (s, .error e)) := by
  constructor
  · intro hcfg
    simp only [lint, hgram, hcfg]
    rw [if_neg (by decide : ¬(true = false))]
  · intro config hcfg hrun
    simp only [lint, hgram, hcfg, hrun]
    rw [if_neg (by decide : ¬(true = false))]

/-- Claim C6 witness: a throwing config resolver aborts the pass with the
state unchanged and the exception propagated. -/
theorem lint_failure_atomic_witness :
    lint (fun _ => .error "boom") (fun _ _ _ _ => .ok []) false false
      (some ⟨0, "JavaScript", some "a.js", "t"⟩) ({} : PluginState) =
      (({} : PluginState), .error "boom") :=
  (lint_failure_atomic (fun _ => .error "boom") (fun _ _ _ _ => .ok []) false false
    ⟨0, "JavaScript", some "a.js", "t"⟩ {} "boom" (by decide)).1 rfl

/-- Claim C7: with no current editor, or with an editor whose grammar name
is neither supported variant, `lint` performs no engine call and returns
with every editor's markers and error state unchanged (the whole state is
returned as-is, and the `Option Engine` component records that no engine
was invoked). -/
theorem lint_unsupported_noop (loadConfig : String → Except String Config)
    (runLinter : Engine → String → Config → List (String × Bool) →
      Except String (List (Option Diagnostic)))
    (supportLintingJsx transformJsx : Bool) (s : PluginState) :
    lint loadConfig runLinter supportLintingJsx transformJsx none s = (s, .ok none) ∧
    ∀ editor : Editor,
      (["JavaScript", "JavaScript (JSX)"].contains editor.grammarName) = false →
      lint loadConfig runLinter supportLintingJsx transformJsx (some editor) s =
        (s, .ok none) := by
  refine ⟨rfl, ?_⟩
  intro editor h
  simp only [lint, h]
  rw [if_pos trivial]

/-- Claim C7 witness: an editor with grammar `Python` is a no-op pass. -/
theorem lint_unsupported_noop_witness :
    lint (fun _ => Except.ok {}) (fun _ _ _ _ => Except.ok []) false false
      (some ⟨0, "Python", none, "t"⟩) ({} : PluginState) = (({} : PluginState), .ok none) :=
  (lint_unsupported_noop (fun _ => Except.ok {}) (fun _ _ _ _ => Except.ok []) false false
    {}).2 ⟨0, "Python", none, "t"⟩ (by decide)

/-- Claim C8: the JSX-aware engine is selected if and only if at least one
of the two configuration flags (`supportLintingJsx`, `transformJsx`) is
enabled, and a completed lint pass reports exactly the selected engine as
the one invoked. -/
theorem lint_engine_selection (loadConfig : String → Except String Config)
    (runLinter : Engine → String → Config → List (String × Bool) →
      Except String (List (Option Diagnostic)))
    (supportLintingJsx transformJsx : Bool) (editor : Editor) (s : PluginState)
    (config : Config) (rawErrors : List (Option Diagnostic))
    (hgram : (["JavaScript", "JavaScript (JSX)"].contains editor.grammarName) = true)
    (hcfg : resolveConfig loadConfig editor = .ok config)
    (hrun : runLinter (selectedLinter supportLintingJsx transformJsx) editor.text config
      config.globals = .ok rawErrors) :
    (selectedLinter supportLintingJsx transformJsx = Engine.jsxhint ↔
      (supportLintingJsx || transformJsx) = true) ∧
    (lint loadConfig runLinter supportLintingJsx transformJsx (some editor) s).2 =
      .ok (some (selectedLinter supportLintingJsx transformJsx)) := by
  constructor
  · cases h : (supportLintingJsx || transformJsx) <;> simp [selectedLinter, h]
  · simp only [lint, hgram, hcfg, hrun]
    rw [if_neg (by decide : ¬(true = false))]
    split <;> rfl

/-- Claim C8 witness: with `supportLintingJsx` on, a successful pass invokes
the JSX-aware engine. -/
theorem lint_engine_selection_witness :
    (selectedLinter true false = Engine.jsxhint ↔ (true || false) = true) ∧
    (lint (fun _ => Except.ok {}) (fun _ _ _ _ => Except.ok []) true false
      (some ⟨0, "JavaScript", some "a.js", "t"⟩) ({} : PluginState)).2 =
      .ok (some (selectedLinter true false)) :=
  lint_engine_selection (fun _ => Except.ok {}) (fun _ _ _ _ => Except.ok []) true false
    ⟨0, "JavaScript", some "a.js", "t"⟩ {} {} [] (by decide) rfl rfl

end AtomJshint
